import Mathlib

/-!
Shallow embedding of `ccswitch.py` (ClaudeAccountSwitcher): the registry
document, the durable-store read/write helpers, and the add / switch /
remove operations, together with theorems settling the spec claims.

Modelling conventions:
* JSON documents are the inductive `Json`; JSON numbers are modelled as
  integers (payloads are opaque, only objects/strings are inspected).
* Python dicts are insertion-ordered association lists; `dictGet`,
  `dictSet`, `dictRemove` mirror `d.get`, `d[k] = v`, `del d[k]`.
* The keys of `registry.accounts` are `str(account_number)` in Python;
  the program only creates them via `str(int)`, compares them for
  equality, and parses them back with `int(...)`, so the key is modelled
  by the integer it prints.  The metadata dict *inside* each entry keeps
  real string keys (`'email'`, `'uuid'`, ...), as the code stores them.
* File I/O is modelled functionally: a `World` holds the parsed contents
  of the persisted files, and an `Env` oracle says which writes succeed
  during one operation (atomic replace-on-write means a failed write
  leaves the old contents), what the clock reads, and how interactive
  prompts are answered.
-/

namespace CCSwitch

/-- JSON-like documents (numbers restricted to integers; payloads are
treated as opaque so this loses no behaviour the program inspects). -/
inductive Json where
  | null
  | bool (b : Bool)
  | num (n : Int)
  | str (s : String)
  | arr (xs : List Json)
  | obj (fields : List (String × Json))

/-- Python `d.get(k)` on an insertion-ordered dict. -/
def dictGet {κ α : Type} [DecidableEq κ] (k : κ) : List (κ × α) → Option α
  | [] => none
  | (k', v) :: rest => if k' = k then some v else dictGet k rest

/-- Python `d[k] = v`: replace in place if the key exists, else append. -/
def dictSet {κ α : Type} [DecidableEq κ] (k : κ) (v : α) : List (κ × α) → List (κ × α)
  | [] => [(k, v)]
  | (k', v') :: rest => if k' = k then (k, v) :: rest else (k', v') :: dictSet k v rest

/-- Python `del d[k]` (no-op if the key is absent, callers guard with `in`). -/
def dictRemove {κ α : Type} [DecidableEq κ] (k : κ) : List (κ × α) → List (κ × α)
  | [] => []
  | (k', v') :: rest => if k' = k then rest else (k', v') :: dictRemove k rest

/-- Python `str.isdigit()` for the ASCII strings the program handles:
nonempty and all digits. -/
def pyIsDigit (s : String) : Bool :=
  !s.data.isEmpty && s.data.all Char.isDigit

/-- Python `int(s)` on an all-digit string (e.g. `int('007') = 7`). -/
def pyToNat (s : String) : Nat :=
  s.data.foldl (fun n c => n * 10 + (c.toNat - 48)) 0

/-- Python `str.lower()` (ASCII). -/
def pyLower (s : String) : String :=
  ⟨s.data.map Char.toLower⟩

/-- Python truthiness of a JSON value (`if not current_config: ...`). -/
def jsonTruthy : Json → Bool
  | .null => false
  | .bool b => b
  | .num n => n ≠ 0
  | .str s => s ≠ ""
  | .arr xs => !xs.isEmpty
  | .obj fields => !fields.isEmpty

/-- `validate_claude_config` (ccswitch.py:120-140): the data must be a dict
with an `oauthAccount` dict holding `emailAddress` and `accountUuid`.
Returns only the boolean half of the `(bool, message)` pair. -/
def validate_claude_config (d : Json) : Bool :=
  match d with
  | .obj fields =>
    match dictGet "oauthAccount" fields with
    | some (.obj oa) =>
      (dictGet "emailAddress" oa).isSome && (dictGet "accountUuid" oa).isSome
    | some _ => false
    | none => false
  | _ => false

/-- `save_config_file` (ccswitch.py:163-182) acting on one file location
(`old` is the current contents, `none` = absent).  `ioOk` is the oracle
for the temp-write / atomic-rename succeeding; on any failure the
destination keeps its old contents. -/
def save_config_file (ioOk : Bool) (d : Json) (old : Option Json) : Bool × Option Json :=
  if validate_claude_config d then
    if ioOk then (true, some d) else (false, old)
  else (false, old)

/-- `save_config_file` at path `<dir>/<n>.json` inside a keyed store. -/
def save_config_store (ioOk : Bool) (n : Int) (d : Json) (store : List (Int × Json)) :
    Bool × List (Int × Json) :=
  let r := save_config_file ioOk d (dictGet n store)
  (r.1, if r.1 then dictSet n d store else store)

/-- Per-profile metadata dict, e.g. `{'email': ..., 'uuid': ..., 'displayName': ..., 'added': ...}`. -/
def AccountInfo : Type := List (String × Json)

/-- The registry document persisted in `sequence.json` (ccswitch.py:42-47). -/
structure Registry where
  activeAccountNumber : Int
  lastUpdated : String
  sequence : List Int
  accounts : List (Int × AccountInfo)

/-- Contents of the persisted files the program touches. -/
structure World where
  registry : Registry
  liveConfig : Option Json
  configs : List (Int × Json)
  credentials : List (Int × Json)

/-- Oracle for one operation: clock reading, which writes/deletes succeed,
whether the host app looks running, and the interactive answers. -/
structure Env where
  now : String
  claudeRunning : Bool
  confirm : Bool
  liveWriteOk : Bool
  seqWriteOk : Bool
  cfgWriteOk : Bool
  credWriteOk : Bool
  cfgDelOk : Bool
  credDelOk : Bool

/-- `get_next_account_number` (ccswitch.py:184-189): `1` on an empty
sequence, else `max(sequence) + 1`. -/
def get_next_account_number (seq : List Int) : Int :=
  match seq.max? with
  | none => 1
  | some m => m + 1

/-- `get_claude_config` (ccswitch.py:191-205): the live config if readable,
else the empty dict. -/
def get_claude_config (w : World) : Json :=
  w.liveConfig.getD (.obj [])

/-- `backup_account` (ccswitch.py:211-226): reject non-positive numbers,
then save the config copy and the credentials copy; both writes are
attempted and the result is their conjunction. -/
def backup_account (env : Env) (n : Int) (cfg cred : Json) (w : World) : Bool × World :=
  if n ≤ 0 then (false, w)
  else
    let rc := save_config_store env.cfgWriteOk n cfg w.configs
    let rk := save_config_store env.credWriteOk n cred w.credentials
    (rc.1 && rk.1, { w with configs := rc.2, credentials := rk.2 })

/-- `add_account` (ccswitch.py:253-313).  Reads the live config; rejects a
falsy or invalid one; allocates the next number; appends it to `sequence`,
stores the metadata dict (note: the email lands under key `'email'`),
makes it active, saves the registry (an `IOError` there is caught by the
surrounding `except` and yields `False` with the file unchanged), then
backs up the payload under the new number as both config and credentials. -/
def add_account (env : Env) (w : World) : Bool × World :=
  let current := get_claude_config w
  if !jsonTruthy current then (false, w)
  else if !validate_claude_config current then (false, w)
  else
    let oa : List (String × Json) :=
      match current with
      | .obj fields =>
        match dictGet "oauthAccount" fields with
        | some (.obj o) => o
        | _ => []
      | _ => []
    let email := (dictGet "emailAddress" oa).getD (.str "Unknown")
    let uuid := (dictGet "accountUuid" oa).getD (.str "Unknown")
    let displayName := (dictGet "displayName" oa).getD (.str "Unknown")
    let n := get_next_account_number w.registry.sequence
    let info : AccountInfo :=
      [("email", email), ("uuid", uuid), ("displayName", displayName),
       ("added", .str env.now)]
    let data := w.registry
    let data :=
      { data with
        sequence := data.sequence ++ [n]
        accounts := dictSet n info data.accounts
        activeAccountNumber := n
        lastUpdated := env.now }
    if !env.seqWriteOk then (false, w)
    else
      let w1 := { w with registry := data }
      backup_account env n current current w1

/-- The argument of `switch_to_account` / `remove_account`: either a Python
int (as passed by `switch_to_next_account`) or a string from the command
line.  The code applies `str(...)` to it; `str`/`int` are mutually inverse
on ints, so the int case keeps the number. -/
inductive Target where
  | num (n : Int)
  | str (s : String)

/-- Outcome of the target-resolution loop (ccswitch.py:324-335, 449-460).
`crash` marks the paths where the Python code would raise uncaught
(`.lower()` on a non-string, `int()` on a non-numeric key); resolution
precedes every write, so a crash leaves all files unchanged. -/
inductive Resolve where
  | found (n : Int)
  | notFound
  | crash
deriving DecidableEq, Repr

/-- The email branch of target resolution: scan `accounts` in insertion
order, comparing `acc_info.get('emailAddress', '').lower()` to the
lowered target.  (Note the looked-up key is `'emailAddress'`, while
`add_account` stores the email under `'email'`.) -/
def emailResolve (s : String) : List (Int × AccountInfo) → Resolve
  | [] => .notFound
  | (k, info) :: rest =>
    match dictGet "emailAddress" info with
    | none => if pyLower "" = pyLower s then .found k else emailResolve s rest
    | some (.str e) => if pyLower e = pyLower s then .found k else emailResolve s rest
    | some _ => .crash

/-- Target resolution (ccswitch.py:324-335): the digit branch (Python
`str(t).isdigit()`, i.e. a nonnegative int or an all-digit string)
checks membership of `int(t)` in `sequence`; otherwise fall through to
the email scan. -/
def resolveTarget (t : Target) (data : Registry) : Resolve :=
  match t with
  | .num n =>
    if 0 ≤ n then (if n ∈ data.sequence then .found n else .notFound)
    else emailResolve (toString n) data.accounts
  | .str s =>
    if pyIsDigit s then
      (if (pyToNat s : Int) ∈ data.sequence then .found (pyToNat s) else .notFound)
    else emailResolve s data.accounts

/-- The commit phase of `switch_to_account` (ccswitch.py:386-398): write the
target payload to the live config; on failure return `False` with the
registry file untouched; only then set `activeAccountNumber`, stamp
`lastUpdated` and save the registry, which can itself still fail. -/
def switch_apply (env : Env) (n : Int) (target_config : Json) (data : Registry) (w1 : World) :
    Bool × World :=
  let rl := save_config_file env.liveWriteOk target_config w1.liveConfig
  let w2 := { w1 with liveConfig := rl.2 }
  if !rl.1 then (false, w2)
  else if env.seqWriteOk then
    (true, { w2 with registry :=
      { data with activeAccountNumber := n, lastUpdated := env.now } })
  else (false, w2)

/-- `switch_to_account` (ccswitch.py:315-403).  Resolve the target; require
`configs/<n>.json` to exist; possibly prompt if the host app is running;
load and validate the target payload; best-effort back up the current
live config under the active number (result ignored); then commit via
`switch_apply`. -/
def switch_to_account (env : Env) (t : Target) (w : World) : Bool × World :=
  let data := w.registry
  match resolveTarget t data with
  | .notFound => (false, w)
  | .crash => (false, w)
  | .found n =>
    match dictGet n w.configs with
    | none => (false, w)
    | some target_config =>
      if env.claudeRunning && !env.confirm then (false, w)
      else if !validate_claude_config target_config then (false, w)
      else
        let current := get_claude_config w
        let active := data.activeAccountNumber
        let w1 :=
          if jsonTruthy current && decide (0 < active) then
            (backup_account env active current current w).2
          else w
        switch_apply env n target_config data w1

/-- `switch_to_next_account` (ccswitch.py:405-423): fail on an empty
sequence; else step circularly from the first index of the active number,
falling back to `sequence[0]` when the active number is absent
(`ValueError` from `list.index`); delegate to `switch_to_account` with
the chosen int. -/
def switch_to_next_account (env : Env) (w : World) : Bool × World :=
  let data := w.registry
  if data.sequence.isEmpty then (false, w)
  else
    let next :=
      match data.sequence.indexOf? data.activeAccountNumber with
      | some i => data.sequence.getD ((i + 1) % data.sequence.length) 0
      | none => data.sequence.headD 0
    switch_to_account env (.num next) w

/-- `remove_account` (ccswitch.py:440-514).  Resolve the target; require
interactive confirmation; drop the number from `sequence` (first
occurrence) and its key from `accounts`; if it was active, reassign to
the new `sequence[0]` or `0`; save the registry (failure aborts with the
file unchanged); finally best-effort delete the two backup files. -/
def remove_account (env : Env) (t : Target) (w : World) : Bool × World :=
  match resolveTarget t w.registry with
  | .notFound => (false, w)
  | .crash => (false, w)
  | .found n =>
    if !env.confirm then (false, w)
    else
      let data := w.registry
      let seq' := data.sequence.erase n
      let accounts' := dictRemove n data.accounts
      let active' :=
        if data.activeAccountNumber = n then seq'.headD 0
        else data.activeAccountNumber
      let data' : Registry :=
        { activeAccountNumber := active'
          lastUpdated := env.now
          sequence := seq'
          accounts := accounts' }
      if !env.seqWriteOk then (false, w)
      else
        let w1 := { w with registry := data' }
        let w2 := { w1 with
          configs := if env.cfgDelOk then dictRemove n w1.configs else w1.configs
          credentials := if env.credDelOk then dictRemove n w1.credentials else w1.credentials }
        (true, w2)

/-- One command-line invocation, or an external rewrite of the live config
by the host application between invocations. -/
inductive Op where
  | add (env : Env)
  | switchTo (env : Env) (t : Target)
  | switchNext (env : Env)
  | remove (env : Env) (t : Target)
  | liveEdit (c : Option Json)

/-- Apply one operation to the world (result flags discarded). -/
def step (w : World) : Op → World
  | .add env => (add_account env w).2
  | .switchTo env t => (switch_to_account env t w).2
  | .switchNext env => (switch_to_next_account env w).2
  | .remove env t => (remove_account env t w).2
  | .liveEdit c => { w with liveConfig := c }

/-- Run a list of operations from a starting world. -/
def run (w : World) (ops : List Op) : World :=
  ops.foldl step w

/-- The registry created on first run (ccswitch.py:40-47). -/
def initRegistry (t : String) : Registry :=
  { activeAccountNumber := 0, lastUpdated := t, sequence := [], accounts := [] }

/-- Fresh installation: initial registry, no live config, empty backups. -/
def initWorld : World :=
  { registry := initRegistry "init", liveConfig := none, configs := [], credentials := [] }

/-! ## Durable-store reads (`load_sequence`, `load_config_file`) -/

/-- The candidate encodings, in the order the code tries them
(ccswitch.py:51, 144). -/
inductive Enc where
  | utf8
  | utf8sig
  | latin1
  | cp1252
deriving DecidableEq, Repr

/-- `encodings_to_try = ['utf-8', 'utf-8-sig', 'latin-1', 'cp1252']`. -/
def encodings_to_try : List Enc := [.utf8, .utf8sig, .latin1, .cp1252]

/-- What opening the file under one encoding yields: a
`UnicodeDecodeError`, a decode that then fails JSON parsing
(`json.JSONDecodeError`), or a parsed document. -/
inductive ReadOutcome where
  | decodeFail
  | jsonFail
  | ok (d : Json)

/-- A file on disk, abstracted as the outcome each candidate encoding
produces on its bytes. -/
def RawFile : Type := Enc → ReadOutcome

/-- How `load_sequence` can fail: invalid JSON (raised `JSONDecodeError`),
a failed field/type validation (raised `ValueError`; scalar documents
raise a `TypeError` from `in`, also aborting immediately), or exhausting
every candidate encoding (raised `UnicodeDecodeError`, ccswitch.py:86). -/
inductive SeqLoadErr where
  | invalidJson
  | invalidFormat
  | encodingExhausted
deriving DecidableEq, Repr

/-- The field/type validation of `load_sequence` (ccswitch.py:58-70): the
four required fields exist, `activeAccountNumber` is an int (Python
`isinstance(-, int)` also accepts `bool`), `sequence` is a list and
`accounts` a dict. -/
def validateSequenceDoc (d : Json) : Bool :=
  match d with
  | .obj fields =>
    (dictGet "activeAccountNumber" fields).isSome &&
    (dictGet "lastUpdated" fields).isSome &&
    (dictGet "sequence" fields).isSome &&
    (dictGet "accounts" fields).isSome &&
    (match dictGet "activeAccountNumber" fields with
     | some (.num _) => true
     | some (.bool _) => true
     | _ => false) &&
    (match dictGet "sequence" fields with
     | some (.arr _) => true
     | _ => false) &&
    (match dictGet "accounts" fields with
     | some (.obj _) => true
     | _ => false)
  | _ => false

/-- The encoding loop of `load_sequence` (ccswitch.py:53-86): a
`UnicodeDecodeError` moves to the next candidate; a `JSONDecodeError` or
a validation `ValueError` is re-raised at once; running out of
candidates raises the final `UnicodeDecodeError`. -/
def loadSequenceAux (f : RawFile) : List Enc → Except SeqLoadErr Json
  | [] => .error .encodingExhausted
  | e :: rest =>
    match f e with
    | .decodeFail => loadSequenceAux f rest
    | .jsonFail => .error .invalidJson
    | .ok d => if validateSequenceDoc d then .ok d else .error .invalidFormat

/-- `load_sequence` (ccswitch.py:49-86) over an abstracted file. -/
def load_sequence (f : RawFile) : Except SeqLoadErr Json :=
  loadSequenceAux f encodings_to_try

/-- `load_config_file` (ccswitch.py:142-161): same encoding loop, but no
schema validation and every failure collapses to `None`. -/
def loadConfigAux (f : RawFile) : List Enc → Option Json
  | [] => none
  | e :: rest =>
    match f e with
    | .decodeFail => loadConfigAux f rest
    | .jsonFail => none
    | .ok d => some d

/-- `load_config_file` over an abstracted file. -/
def load_config_file (f : RawFile) : Option Json :=
  loadConfigAux f encodings_to_try

/-- True when this outcome is a `UnicodeDecodeError`. -/
def ReadOutcome.isDecodeFail : ReadOutcome → Bool
  | .decodeFail => true
  | _ => false

/-- Modelled from the spec (§4.1): the outcome under the first candidate
encoding, in the fixed order, whose byte-decoding succeeds — `none` when
every candidate fails to decode.  Used to compare the code's reads
against the spec's "first that decodes" description. -/
def firstDecodedOutcome (f : RawFile) : Option ReadOutcome :=
  (encodings_to_try.find? (fun e => !(f e).isDecodeFail)).map f

/-! ## The registry invariant and its preservation -/

/-- The registry invariant of spec §3: the `accounts` keys mirror
`sequence` in order (hence agree as sets), `sequence` has no duplicates,
every ID is at least 1, and the active number is 0 or a member. -/
def RegInv (r : Registry) : Prop :=
  r.accounts.map Prod.fst = r.sequence ∧
  r.sequence.Nodup ∧
  (∀ n ∈ r.sequence, 1 ≤ n) ∧
  (r.activeAccountNumber = 0 ∨ r.activeAccountNumber ∈ r.sequence)

/-- Modelled from the spec (claim C10): a dictionary containing an
`oauthAccount` dictionary with both `emailAddress` and `accountUuid`
keys.  Stated independently of `validate_claude_config` so the code's
check can be compared against the claim's wording. -/
def SpecValidPayload (d : Json) : Prop :=
  ∃ fields oa, d = .obj fields ∧
    dictGet "oauthAccount" fields = some (.obj oa) ∧
    (dictGet "emailAddress" oa).isSome = true ∧
    (dictGet "accountUuid" oa).isSome = true

/-! ## Concrete fixtures -/

/-- An environment where every write succeeds, the host app is not
running, and the user confirms prompts. -/
def envOk : Env :=
  { now := "t1", claudeRunning := false, confirm := true, liveWriteOk := true,
    seqWriteOk := true, cfgWriteOk := true, credWriteOk := true,
    cfgDelOk := true, credDelOk := true }

/-- A minimal valid payload with email `A@x.com`. -/
def payloadP : Json :=
  .obj [("oauthAccount",
    .obj [("emailAddress", .str "A@x.com"), ("accountUuid", .str "u1")])]

/-- The same identity with an extra drifted setting, as a live config that
no longer matches its backup byte-for-byte. -/
def payloadQ : Json :=
  .obj [("oauthAccount",
    .obj [("emailAddress", .str "A@x.com"), ("accountUuid", .str "u1"),
          ("extra", .num 1)])]

/-- The world right after `add_account` registered `payloadP` on a fresh
installation. -/
def w2bug : World :=
  (add_account envOk { initWorld with liveConfig := some payloadP }).2

/-- Metadata as `add_account` stores it for `payloadP` at time `t0`. -/
def infoA : AccountInfo :=
  [("email", .str "A@x.com"), ("uuid", .str "u1"),
   ("displayName", .str "Unknown"), ("added", .str "t0")]

/-- One registered active profile whose backup is `payloadP` while the
live config has drifted to `payloadQ`. -/
def w8 : World :=
  { registry :=
      { activeAccountNumber := 1, lastUpdated := "t0",
        sequence := [1], accounts := [(1, infoA)] }
    liveConfig := some payloadQ
    configs := [(1, payloadP)]
    credentials := [(1, payloadP)] }

/-- Register three profiles, then remove profile 3 (the maximum). -/
def c1ops : List Op :=
  [.liveEdit (some payloadP), .add envOk, .add envOk, .add envOk,
   .remove envOk (.num 3)]

/-! ## Helper lemmas -/

lemma max?_spec {l : List Int} {m : Int} (h : l.max? = some m) :
    m ∈ l ∧ ∀ x ∈ l, x ≤ m := by
  haveI : Std.Antisymm (fun x1 x2 : Int => x1 ≤ x2) := ⟨fun h1 h2 => le_antisymm h1 h2⟩
  exact (List.max?_eq_some_iff (fun a => le_refl a) (fun a b => max_choice a b)
    (fun _ _ _ => max_le_iff)).mp h

lemma lt_get_next (seq : List Int) : ∀ x ∈ seq, x < get_next_account_number seq := by
  intro x hx
  rcases h : seq.max? with _ | m
  · simp [List.max?_eq_none_iff.mp h] at hx
  · have hle := (max?_spec h).2 x hx
    simp only [get_next_account_number, h]
    omega

lemma get_next_pos (seq : List Int) (hpos : ∀ x ∈ seq, 1 ≤ x) :
    1 ≤ get_next_account_number seq := by
  rcases h : seq.max? with _ | m
  · simp [get_next_account_number, h]
  · have := hpos m (max?_spec h).1
    simp only [get_next_account_number, h]
    omega

lemma dictSet_fresh {κ α : Type} [DecidableEq κ] (k : κ) (v : α) (l : List (κ × α))
    (h : k ∉ l.map Prod.fst) : dictSet k v l = l ++ [(k, v)] := by
  induction l with
  | nil => rfl
  | cons p rest ih =>
    rcases p with ⟨k', v'⟩
    simp only [List.map_cons, List.mem_cons] at h
    push_neg at h
    simp only [dictSet, if_neg (fun he : k' = k => h.1 he.symm), List.cons_append, ih h.2]

lemma map_fst_dictRemove {κ α : Type} [DecidableEq κ] [BEq κ] [LawfulBEq κ]
    (k : κ) (l : List (κ × α)) :
    (dictRemove k l).map Prod.fst = (l.map Prod.fst).erase k := by
  induction l with
  | nil => rfl
  | cons p rest ih =>
    simp only [dictRemove, List.map_cons, List.erase_cons]
    by_cases h : p.1 = k
    · simp [h]
    · simp only [if_neg h, beq_iff_eq, if_neg h, List.map_cons, ih]

lemma emailResolve_found_mem {s : String} {accounts : List (Int × AccountInfo)} {k : Int}
    (h : emailResolve s accounts = .found k) : k ∈ accounts.map Prod.fst := by
  induction accounts with
  | nil => simp [emailResolve] at h
  | cons p rest ih =>
    rcases p with ⟨k', info⟩
    rcases hg : dictGet "emailAddress" info with _ | v
    · simp only [emailResolve, hg] at h
      by_cases hc : pyLower "" = pyLower s
      · rw [if_pos hc] at h; cases h; simp
      · rw [if_neg hc] at h
        simp only [List.map_cons, List.mem_cons]
        exact Or.inr (ih h)
    · match v with
      | .str e =>
        simp only [emailResolve, hg] at h
        by_cases hc : pyLower e = pyLower s
        · rw [if_pos hc] at h; cases h; simp
        · rw [if_neg hc] at h
          simp only [List.map_cons, List.mem_cons]
          exact Or.inr (ih h)
      | .null => simp only [emailResolve, hg] at h; cases h
      | .bool _ => simp only [emailResolve, hg] at h; cases h
      | .num _ => simp only [emailResolve, hg] at h; cases h
      | .arr _ => simp only [emailResolve, hg] at h; cases h
      | .obj _ => simp only [emailResolve, hg] at h; cases h

lemma resolve_found_mem {t : Target} {r : Registry} {n : Int}
    (hkeys : r.accounts.map Prod.fst = r.sequence)
    (h : resolveTarget t r = .found n) : n ∈ r.sequence := by
  match t with
  | .num m =>
    simp only [resolveTarget] at h
    by_cases h0 : (0:Int) ≤ m
    · rw [if_pos h0] at h
      by_cases hm : m ∈ r.sequence
      · rw [if_pos hm] at h; cases h; exact hm
      · rw [if_neg hm] at h; cases h
    · rw [if_neg h0] at h
      exact hkeys ▸ emailResolve_found_mem h
  | .str s =>
    simp only [resolveTarget] at h
    by_cases hp : pyIsDigit s = true
    · rw [if_pos hp] at h
      by_cases hm : (pyToNat s : Int) ∈ r.sequence
      · rw [if_pos hm] at h; cases h; exact hm
      · rw [if_neg hm] at h; cases h
    · rw [if_neg hp] at h
      exact hkeys ▸ emailResolve_found_mem h

lemma headD_mem {l : List Int} (h : l ≠ []) : l.headD 0 ∈ l := by
  cases l with
  | nil => exact absurd rfl h
  | cons a t => simp [List.headD]

lemma backup_account_registry (env : Env) (n : Int) (cfg cred : Json) (w : World) :
    (backup_account env n cfg cred w).2.registry = w.registry := by
  unfold backup_account
  split <;> rfl

lemma regInv_add (env : Env) (w : World) (h : RegInv w.registry) :
    RegInv (add_account env w).2.registry := by
  obtain ⟨hkeys, hnodup, hpos, hact⟩ := h
  have hfresh : get_next_account_number w.registry.sequence ∉ w.registry.sequence :=
    fun hm => absurd (lt_get_next _ _ hm) (lt_irrefl _)
  simp only [add_account]
  split
  · exact ⟨hkeys, hnodup, hpos, hact⟩
  split
  · exact ⟨hkeys, hnodup, hpos, hact⟩
  split
  · exact ⟨hkeys, hnodup, hpos, hact⟩
  rw [backup_account_registry]
  refine ⟨?_, ?_, ?_, ?_⟩
  · rw [dictSet_fresh _ _ _ (hkeys ▸ hfresh)]
    simp [hkeys]
  · refine List.Nodup.append hnodup (List.nodup_singleton _) ?_
    intro x hx hx2
    rw [List.mem_singleton] at hx2
    exact hfresh (hx2 ▸ hx)
  · intro x hx
    rcases List.mem_append.mp hx with hx | hx
    · exact hpos x hx
    · simp only [List.mem_singleton] at hx
      exact hx ▸ get_next_pos _ hpos
  · exact Or.inr (List.mem_append.mpr (Or.inr (by simp)))

lemma switch_apply_registry (env : Env) (n : Int) (tc : Json) (data : Registry) (w1 : World) :
    (switch_apply env n tc data w1).2.registry = w1.registry ∨
    (switch_apply env n tc data w1).1 = true ∧
      (switch_apply env n tc data w1).2.registry =
        { data with activeAccountNumber := n, lastUpdated := env.now } := by
  simp only [switch_apply]
  split
  · exact Or.inl rfl
  split
  · exact Or.inr ⟨rfl, rfl⟩
  · exact Or.inl rfl

lemma switch_registry_cases (env : Env) (t : Target) (w : World) :
    (switch_to_account env t w).2.registry = w.registry ∨
    ∃ n, resolveTarget t w.registry = .found n ∧
      (switch_to_account env t w).2.registry =
        { w.registry with activeAccountNumber := n, lastUpdated := env.now } := by
  rcases hres : resolveTarget t w.registry with n | _ | _
  · rcases hg : dictGet n w.configs with _ | tc
    · simp only [switch_to_account, hres, hg]
      exact Or.inl (by trivial)
    · simp only [switch_to_account, hres, hg]
      split
      · exact Or.inl (by trivial)
      split
      · exact Or.inl (by trivial)
      by_cases hbk : (jsonTruthy (get_claude_config w) &&
          decide (0 < w.registry.activeAccountNumber)) = true
      · rw [if_pos hbk]
        rcases switch_apply_registry env n tc w.registry
            (backup_account env w.registry.activeAccountNumber
              (get_claude_config w) (get_claude_config w) w).2 with h | ⟨_, h⟩
        · exact Or.inl (h.trans (backup_account_registry _ _ _ _ _))
        · exact Or.inr ⟨n, by simp [hres], h⟩
      · rw [if_neg hbk]
        rcases switch_apply_registry env n tc w.registry w with h | ⟨_, h⟩
        · exact Or.inl h
        · exact Or.inr ⟨n, by simp [hres], h⟩
  · simp only [switch_to_account, hres]
    exact Or.inl (by trivial)
  · simp only [switch_to_account, hres]
    exact Or.inl (by trivial)

lemma regInv_switch (env : Env) (t : Target) (w : World) (h : RegInv w.registry) :
    RegInv (switch_to_account env t w).2.registry := by
  rcases switch_registry_cases env t w with heq | ⟨n, hres, heq⟩
  · exact heq ▸ h
  · obtain ⟨hkeys, hnodup, hpos, _⟩ := h
    rw [heq]
    exact ⟨hkeys, hnodup, hpos, Or.inr (resolve_found_mem hkeys hres)⟩

lemma regInv_switch_next (env : Env) (w : World) (h : RegInv w.registry) :
    RegInv (switch_to_next_account env w).2.registry := by
  simp only [switch_to_next_account]
  split
  · exact h
  · exact regInv_switch _ _ _ h

lemma regInv_remove (env : Env) (t : Target) (w : World) (h : RegInv w.registry) :
    RegInv (remove_account env t w).2.registry := by
  obtain ⟨hkeys, hnodup, hpos, hact⟩ := h
  unfold remove_account
  cases hres : resolveTarget t w.registry with
  | notFound => exact ⟨hkeys, hnodup, hpos, hact⟩
  | crash => exact ⟨hkeys, hnodup, hpos, hact⟩
  | found n =>
    simp only
    split
    · exact ⟨hkeys, hnodup, hpos, hact⟩
    split
    · exact ⟨hkeys, hnodup, hpos, hact⟩
    refine ⟨?_, hnodup.erase n, ?_, ?_⟩
    · rw [map_fst_dictRemove, hkeys]
    · exact fun x hx => hpos x (List.mem_of_mem_erase hx)
    · by_cases he : w.registry.activeAccountNumber = n
      · simp only [if_pos he]
        by_cases hnil : w.registry.sequence.erase n = []
        · rw [hnil]; exact Or.inl rfl
        · exact Or.inr (headD_mem hnil)
      · simp only [if_neg he]
        rcases hact with h0 | hmem
        · exact Or.inl h0
        · exact Or.inr ((List.mem_erase_of_ne he).mpr hmem)

lemma regInv_step (w : World) (op : Op) (h : RegInv w.registry) :
    RegInv (step w op).registry := by
  cases op with
  | add env => exact regInv_add env w h
  | switchTo env t => exact regInv_switch env t w h
  | switchNext env => exact regInv_switch_next env w h
  | remove env t => exact regInv_remove env t w h
  | liveEdit c => exact h

lemma regInv_run (w : World) (ops : List Op) (h : RegInv w.registry) :
    RegInv (run w ops).registry := by
  induction ops generalizing w with
  | nil => exact h
  | cons op rest ih => exact ih _ (regInv_step w op h)

lemma regInv_initWorld : RegInv initWorld.registry :=
  ⟨rfl, List.nodup_nil, by simp [initWorld, initRegistry], Or.inl rfl⟩

/-! ## Operation lemmas used across claims -/

lemma save_config_file_ok {ioOk : Bool} {d : Json} {old : Option Json}
    (h : (save_config_file ioOk d old).1 = true) :
    ioOk = true ∧ validate_claude_config d = true := by
  unfold save_config_file at h
  by_cases hv : validate_claude_config d = true
  · rw [if_pos hv] at h
    by_cases hio : ioOk = true
    · exact ⟨hio, hv⟩
    · rw [if_neg hio] at h
      cases h
  · rw [if_neg hv] at h
    cases h

lemma save_config_file_success {ioOk : Bool} {d : Json} {old : Option Json}
    (h : (save_config_file ioOk d old).1 = true) :
    save_config_file ioOk d old = (true, some d) := by
  obtain ⟨hio, hv⟩ := save_config_file_ok h
  unfold save_config_file
  rw [if_pos hv, if_pos hio]

lemma save_config_file_io_fail (d : Json) (old : Option Json) :
    save_config_file false d old = (false, old) := by
  unfold save_config_file
  split
  · rfl
  · rfl

lemma switch_apply_io_fail (env : Env) (n : Int) (tc : Json) (data : Registry) (w1 : World)
    (hlw : env.liveWriteOk = false) :
    switch_apply env n tc data w1 = (false, w1) := by
  simp only [switch_apply, hlw, save_config_file_io_fail]
  rfl

lemma switch_apply_cases (env : Env) (n : Int) (tc : Json) (data : Registry) (w1 : World) :
    ((switch_apply env n tc data w1).1 = true ∧
      save_config_file env.liveWriteOk tc w1.liveConfig = (true, some tc) ∧
      env.seqWriteOk = true ∧
      switch_apply env n tc data w1 =
        (true,
          { w1 with
            liveConfig := some tc
            registry := { data with activeAccountNumber := n, lastUpdated := env.now } })) ∨
    (switch_apply env n tc data w1).1 = false := by
  by_cases hrl : (save_config_file env.liveWriteOk tc w1.liveConfig).1 = true
  · by_cases hsq : env.seqWriteOk = true
    · left
      have hsave := save_config_file_success hrl
      refine ⟨?_, hsave, hsq, ?_⟩ <;> simp [switch_apply, hsave, hsq]
    · right
      simp only [Bool.not_eq_true] at hsq
      simp [switch_apply, hrl, hsq]
  · right
    simp only [Bool.not_eq_true] at hrl
    simp [switch_apply, hrl]

lemma backup_account_ok {env : Env} {n : Int} {cfg cred : Json} {w : World}
    (h : (backup_account env n cfg cred w).1 = true) :
    env.cfgWriteOk = true ∧ env.credWriteOk = true := by
  by_cases hn : n ≤ 0
  · simp [backup_account, hn] at h
  · simp only [backup_account, if_neg hn, save_config_store, Bool.and_eq_true] at h
    exact ⟨(save_config_file_ok h.1).1, (save_config_file_ok h.2).1⟩

lemma validate_iff_spec (d : Json) :
    validate_claude_config d = true ↔ SpecValidPayload d := by
  constructor
  · intro h
    match d with
    | .null => cases h
    | .bool _ => cases h
    | .num _ => cases h
    | .str _ => cases h
    | .arr _ => cases h
    | .obj fields =>
      rcases hoa : dictGet "oauthAccount" fields with _ | v
      · simp [validate_claude_config, hoa] at h
      · match v with
        | .obj oa =>
          simp only [validate_claude_config, hoa, Bool.and_eq_true] at h
          exact ⟨fields, oa, rfl, hoa, h.1, h.2⟩
        | .null => simp [validate_claude_config, hoa] at h
        | .bool _ => simp [validate_claude_config, hoa] at h
        | .num _ => simp [validate_claude_config, hoa] at h
        | .str _ => simp [validate_claude_config, hoa] at h
        | .arr _ => simp [validate_claude_config, hoa] at h
  · rintro ⟨fields, oa, rfl, hoa, h1, h2⟩
    simp [validate_claude_config, hoa, h1, h2]

lemma indexOf?_first {a : Int} (l : List Int) (i : Nat)
    (hget : l.get? i = some a) (hmin : ∀ j < i, l.get? j ≠ some a) :
    List.indexOf? a l = some i := by
  induction l generalizing i with
  | nil => simp at hget
  | cons x xs ih =>
    rw [List.indexOf?_cons]
    cases i with
    | zero =>
      rw [List.get?_cons_zero] at hget
      cases hget
      simp
    | succ i' =>
      have hx : ¬ x = a :=
        fun he => hmin 0 (Nat.succ_pos _) (by simp [List.get?_cons_zero, he])
      rw [if_neg (by simpa using hx)]
      rw [List.get?_cons_succ] at hget
      rw [ih i' hget (fun j hj h => hmin (j + 1) (Nat.succ_lt_succ hj) (by simpa using h))]
      rfl

lemma loadSequenceAux_spec (f : RawFile) (es : List Enc) :
    loadSequenceAux f es =
      match (es.find? (fun e => !(f e).isDecodeFail)).map f with
      | none => .error .encodingExhausted
      | some .decodeFail => .error .encodingExhausted
      | some .jsonFail => .error .invalidJson
      | some (.ok d) => if validateSequenceDoc d then .ok d else .error .invalidFormat := by
  induction es with
  | nil => rfl
  | cons e rest ih =>
    rcases hfe : f e with _ | _ | d <;>
      simp only [loadSequenceAux, List.find?, hfe, ReadOutcome.isDecodeFail,
        Bool.not_true, Bool.not_false, Option.map_some', ih]

lemma loadConfigAux_spec (f : RawFile) (es : List Enc) :
    loadConfigAux f es =
      match (es.find? (fun e => !(f e).isDecodeFail)).map f with
      | none => none
      | some .decodeFail => none
      | some .jsonFail => none
      | some (.ok d) => some d := by
  induction es with
  | nil => rfl
  | cons e rest ih =>
    rcases hfe : f e with _ | _ | d <;>
      simp only [loadConfigAux, List.find?, hfe, ReadOutcome.isDecodeFail,
        Bool.not_true, Bool.not_false, Option.map_some', ih]

/-! ## Claims -/

/-- C1, counterexample: the claim says that after removing ID 3 from
`sequence = [1,2,3]` (a state reached here by three adds followed by a
remove), `get_next_account_number` still returns 4; the code returns
`max(sequence) + 1 = 3`, reusing the removed maximal ID. -/
theorem c1_counterexample :
    (run initWorld c1ops).registry.sequence = [1, 2] ∧
    get_next_account_number (run initWorld c1ops).registry.sequence = 3 ∧
    get_next_account_number (run initWorld c1ops).registry.sequence ≠ 4 := by
  refine ⟨by decide, by decide, by decide⟩

/-- C1, amended: `get_next_account_number` returns 1 on an empty sequence
and otherwise a value strictly greater than every ID *currently* in the
sequence; allocation is based on the current maximum, so removing the
maximal ID can make its number be reused (as the counterexample shows),
while removing a non-maximal ID cannot. -/
theorem c1_next_number (seq : List Int) :
    (seq = [] → get_next_account_number seq = 1) ∧
    (∀ x ∈ seq, x < get_next_account_number seq) :=
  ⟨fun h => by subst h; rfl, lt_get_next seq⟩

/-- Witness for C1's amended theorem at concrete inputs. -/
theorem c1_next_number_witness :
    get_next_account_number [] = 1 ∧ (1 : Int) < get_next_account_number [1, 2] :=
  ⟨(c1_next_number []).1 rfl, (c1_next_number [1, 2]).2 1 (by decide)⟩

/-- C2 (code bug): after `add_account` registers a profile whose live
config has `emailAddress = "A@x.com"`, the metadata stores the address
under key `'email'`, but resolution looks up `'emailAddress'`; so
switching or removing by that email — in any ASCII case — resolves to
`notFound` and fails, contradicting the documented email matching. -/
theorem c2_email_lookup_bug :
    (add_account envOk { initWorld with liveConfig := some payloadP }).1 = true ∧
    dictGet 1 w2bug.registry.accounts =
      some [("email", .str "A@x.com"), ("uuid", .str "u1"),
            ("displayName", .str "Unknown"), ("added", .str "t1")] ∧
    resolveTarget (.str "A@x.com") w2bug.registry = .notFound ∧
    resolveTarget (.str "a@x.com") w2bug.registry = .notFound ∧
    (switch_to_account envOk (.str "a@x.com") w2bug).1 = false ∧
    (switch_to_account envOk (.str "a@x.com") w2bug).2 = w2bug ∧
    (remove_account envOk (.str "a@x.com") w2bug).1 = false := by
  refine ⟨rfl, rfl, by decide, by decide, rfl, rfl, rfl⟩

/-- C3: after every sequence of operations from the initial registry, the
integers in `sequence` coincide with the keys of `accounts` (which model
the integer-parsed stringified keys), `sequence` has no duplicates, and
every ID is at least 1. -/
theorem c3_registry_consistency (ops : List Op) :
    (∀ n : Int, n ∈ (run initWorld ops).registry.sequence ↔
      n ∈ (run initWorld ops).registry.accounts.map Prod.fst) ∧
    (run initWorld ops).registry.sequence.Nodup ∧
    (∀ n ∈ (run initWorld ops).registry.sequence, 1 ≤ n) := by
  obtain ⟨hkeys, hnodup, hpos, _⟩ := regInv_run initWorld ops regInv_initWorld
  exact ⟨fun n => by rw [hkeys], hnodup, hpos⟩

/-- Witness for C3 at a concrete operation list. -/
theorem c3_registry_consistency_witness :
    ((1 : Int) ∈ (run initWorld [.liveEdit (some payloadP), .add envOk]).registry.sequence ↔
      (1 : Int) ∈ (run initWorld [.liveEdit (some payloadP),
        .add envOk]).registry.accounts.map Prod.fst) ∧
    (1 : Int) ≤ 1 :=
  ⟨(c3_registry_consistency [.liveEdit (some payloadP), .add envOk]).1 1,
   (c3_registry_consistency [.liveEdit (some payloadP), .add envOk]).2.2 1 (by decide)⟩

/-- C4: in every reachable state the active number is 0 or a member of
`sequence`; and when `remove_account` successfully removes the profile
that was active, the new active number is the new `sequence[0]` when any
profiles remain and 0 otherwise (`headD 0` covers both cases). -/
theorem c4_active_pointer (ops : List Op) :
    ((run initWorld ops).registry.activeAccountNumber = 0 ∨
      (run initWorld ops).registry.activeAccountNumber ∈
        (run initWorld ops).registry.sequence) ∧
    (∀ (env : Env) (t : Target) (w : World) (n : Int),
      resolveTarget t w.registry = .found n →
      w.registry.activeAccountNumber = n →
      (remove_account env t w).1 = true →
      (remove_account env t w).2.registry.activeAccountNumber =
        ((remove_account env t w).2.registry.sequence).headD 0) := by
  constructor
  · exact (regInv_run initWorld ops regInv_initWorld).2.2.2
  · intro env t w n hres hact hok
    simp only [remove_account, hres] at hok ⊢
    by_cases hc : (!env.confirm) = true
    · rw [if_pos hc] at hok
      cases hok
    · rw [if_neg hc] at hok ⊢
      by_cases hs : (!env.seqWriteOk) = true
      · rw [if_pos hs] at hok
        cases hok
      · rw [if_neg hs]
        simp [hact]

/-- Witness for C4's removal clause at a concrete input. -/
theorem c4_active_pointer_witness :
    (remove_account envOk (.num 1) w2bug).2.registry.activeAccountNumber =
      ((remove_account envOk (.num 1) w2bug).2.registry.sequence).headD 0 :=
  (c4_active_pointer []).2 envOk (.num 1) w2bug 1 (by decide) (by decide) (by decide)

/-- C5: the registry is persisted only after the live-config write
succeeds; whenever that write fails, `switch_to_account` returns failure
with the persisted registry (hence `activeAccountNumber`) unchanged. -/
theorem c5_live_write_gates_registry (env : Env) (t : Target) (w : World) :
    (env.liveWriteOk = false →
      (switch_to_account env t w).1 = false ∧
      (switch_to_account env t w).2.registry = w.registry) ∧
    ((switch_to_account env t w).2.registry ≠ w.registry → env.liveWriteOk = true) := by
  have hmain : env.liveWriteOk = false →
      (switch_to_account env t w).1 = false ∧
      (switch_to_account env t w).2.registry = w.registry := by
    intro hlw
    rcases hres : resolveTarget t w.registry with n | _ | _
    · rcases hg : dictGet n w.configs with _ | tc
      · simp only [switch_to_account, hres, hg]
        exact ⟨by trivial, by trivial⟩
      · simp only [switch_to_account, hres, hg]
        split
        · exact ⟨by trivial, by trivial⟩
        split
        · exact ⟨by trivial, by trivial⟩
        by_cases hbk : (jsonTruthy (get_claude_config w) &&
            decide (0 < w.registry.activeAccountNumber)) = true
        · rw [if_pos hbk, switch_apply_io_fail env n tc w.registry _ hlw]
          exact ⟨rfl, backup_account_registry _ _ _ _ _⟩
        · rw [if_neg hbk, switch_apply_io_fail env n tc w.registry w hlw]
          exact ⟨rfl, rfl⟩
    · simp only [switch_to_account, hres]
      exact ⟨by trivial, by trivial⟩
    · simp only [switch_to_account, hres]
      exact ⟨by trivial, by trivial⟩
  refine ⟨hmain, ?_⟩
  intro hne
  cases hlw : env.liveWriteOk
  · exact absurd (hmain hlw).2 hne
  · rfl

/-- Witness for C5 at a concrete failing live write. -/
theorem c5_live_write_gates_registry_witness :
    (switch_to_account { envOk with liveWriteOk := false } (.num 1) w8).1 = false ∧
    (switch_to_account { envOk with liveWriteOk := false } (.num 1) w8).2.registry =
      w8.registry :=
  (c5_live_write_gates_registry { envOk with liveWriteOk := false } (.num 1) w8).1 rfl

/-- C6: `add_account` reports success only when the registry save and both
backup writes (config and credentials copies) succeeded; a backup failure
after the registry save surfaces as failure, never success. -/
theorem c6_add_success_needs_backup (env : Env) (w : World) :
    ((add_account env w).1 = true →
      env.seqWriteOk = true ∧ env.cfgWriteOk = true ∧ env.credWriteOk = true) ∧
    ((env.cfgWriteOk = false ∨ env.credWriteOk = false) →
      (add_account env w).1 = false) := by
  have hmain : (add_account env w).1 = true →
      env.seqWriteOk = true ∧ env.cfgWriteOk = true ∧ env.credWriteOk = true := by
    intro h
    simp only [add_account] at h
    split at h
    · cases h
    split at h
    · cases h
    split at h
    · cases h
    · rename_i hseq
      obtain ⟨h1, h2⟩ := backup_account_ok h
      refine ⟨?_, h1, h2⟩
      simpa using hseq
  refine ⟨hmain, ?_⟩
  intro hcc
  cases hr : (add_account env w).1
  · rfl
  · obtain ⟨_, h1, h2⟩ := hmain hr
    rcases hcc with hc | hc
    · rw [h1] at hc; cases hc
    · rw [h2] at hc; cases hc

/-- Witness for C6: a failing config-backup write makes add fail. -/
theorem c6_add_success_needs_backup_witness :
    (add_account { envOk with cfgWriteOk := false }
      { initWorld with liveConfig := some payloadP }).1 = false :=
  (c6_add_success_needs_backup { envOk with cfgWriteOk := false }
    { initWorld with liveConfig := some payloadP }).2 (Or.inl rfl)

/-- C7: with an empty sequence `switch_to_next_account` fails without
switching; otherwise, if `i` is the first index of `activeAccountNumber`
in `sequence` it targets `sequence[(i+1) % len]`, and if the active
number is absent it targets `sequence[0]`, delegating to
`switch_to_account` in both cases. -/
theorem c7_switch_next_targets (env : Env) (w : World) :
    (w.registry.sequence = [] → switch_to_next_account env w = (false, w)) ∧
    (∀ i : Nat, w.registry.sequence.get? i = some w.registry.activeAccountNumber →
      (∀ j < i, w.registry.sequence.get? j ≠ some w.registry.activeAccountNumber) →
      switch_to_next_account env w =
        switch_to_account env
          (.num (w.registry.sequence.getD
            ((i + 1) % w.registry.sequence.length) 0)) w) ∧
    (w.registry.activeAccountNumber ∉ w.registry.sequence →
      w.registry.sequence ≠ [] →
      switch_to_next_account env w =
        switch_to_account env (.num (w.registry.sequence.headD 0)) w) := by
  refine ⟨?_, ?_, ?_⟩
  · intro h
    simp [switch_to_next_account, h]
  · intro i hget hmin
    have hne : w.registry.sequence.isEmpty = false := by
      cases hseq : w.registry.sequence
      · rw [hseq] at hget; simp at hget
      · rfl
    have hidx := indexOf?_first _ i hget hmin
    simp [switch_to_next_account, hne, hidx]
  · intro hnot hne0
    have hne : w.registry.sequence.isEmpty = false := by
      cases hseq : w.registry.sequence
      · exact absurd hseq hne0
      · rfl
    have hidx : List.indexOf? w.registry.activeAccountNumber w.registry.sequence = none :=
      List.indexOf?_eq_none_iff.mpr (by
        intro x hx
        simp only [beq_iff_eq]
        intro he
        exact hnot (he ▸ hx))
    simp [switch_to_next_account, hne, hidx]

/-- Witness for C7 on the empty registry. -/
theorem c7_switch_next_targets_witness :
    switch_to_next_account envOk initWorld = (false, initWorld) :=
  (c7_switch_next_targets envOk initWorld).1 rfl

/-- C8, counterexample: switching to the already-active profile 1 while
the live config (`payloadQ`) has drifted from its backup (`payloadP`)
succeeds but replaces the live config with the old backup (and refreshes
`lastUpdated`), so neither the live config nor the whole registry
document is left unchanged. -/
theorem c8_counterexample :
    (switch_to_account envOk (.num 1) w8).1 = true ∧
    w8.registry.activeAccountNumber = 1 ∧
    (switch_to_account envOk (.num 1) w8).2.liveConfig ≠ w8.liveConfig ∧
    (switch_to_account envOk (.num 1) w8).2.registry.lastUpdated ≠
      w8.registry.lastUpdated := by
  refine ⟨rfl, rfl, ?_, ?_⟩
  · intro h
    have h2 : (some payloadP : Option Json) = some payloadQ := h
    have h3 : payloadP = payloadQ := Option.some.inj h2
    simp [payloadP, payloadQ] at h3
  · intro h
    have h2 : ("t1" : String) = "t0" := h
    exact absurd h2 (by decide)

/-- C8, amended: a successful switch to the already-active profile leaves
`sequence`, `accounts` and `activeAccountNumber` unchanged, refreshes
`lastUpdated` to the current time, and sets the live config to the
stored backup payload of that profile — so the live config is unchanged
exactly when it already equalled its backup. -/
theorem c8_switch_to_active (env : Env) (t : Target) (w : World) (n : Int)
    (hres : resolveTarget t w.registry = .found n)
    (hact : w.registry.activeAccountNumber = n)
    (hok : (switch_to_account env t w).1 = true) :
    (switch_to_account env t w).2.registry.sequence = w.registry.sequence ∧
    (switch_to_account env t w).2.registry.accounts = w.registry.accounts ∧
    (switch_to_account env t w).2.registry.activeAccountNumber =
      w.registry.activeAccountNumber ∧
    (switch_to_account env t w).2.registry.lastUpdated = env.now ∧
    (switch_to_account env t w).2.liveConfig = dictGet n w.configs := by
  rcases hg : dictGet n w.configs with _ | tc
  · simp [switch_to_account, hres, hg] at hok
  · simp only [switch_to_account, hres, hg] at hok ⊢
    by_cases hA : (env.claudeRunning && !env.confirm) = true
    · rw [if_pos hA] at hok
      cases hok
    · rw [if_neg hA] at hok ⊢
      by_cases hV : (!validate_claude_config tc) = true
      · rw [if_pos hV] at hok
        cases hok
      · rw [if_neg hV] at hok ⊢
        by_cases hbk : (jsonTruthy (get_claude_config w) &&
            decide (0 < w.registry.activeAccountNumber)) = true
        · rw [if_pos hbk] at hok ⊢
          rcases switch_apply_cases env n tc w.registry
              (backup_account env w.registry.activeAccountNumber
                (get_claude_config w) (get_claude_config w) w).2 with
            ⟨_, _, _, heq⟩ | hfail
          · rw [heq]
            exact ⟨rfl, rfl, hact.symm, rfl, rfl⟩
          · rw [hfail] at hok
            cases hok
        · rw [if_neg hbk] at hok ⊢
          rcases switch_apply_cases env n tc w.registry w with ⟨_, _, _, heq⟩ | hfail
          · rw [heq]
            exact ⟨rfl, rfl, hact.symm, rfl, rfl⟩
          · rw [hfail] at hok
            cases hok

/-- Witness for C8's amended theorem: switching to the active profile on
`w8` (backup `payloadP` for profile 1). -/
theorem c8_switch_to_active_witness :
    (switch_to_account envOk (.num 1) w8).2.registry.sequence = w8.registry.sequence ∧
    (switch_to_account envOk (.num 1) w8).2.registry.accounts = w8.registry.accounts ∧
    (switch_to_account envOk (.num 1) w8).2.registry.activeAccountNumber =
      w8.registry.activeAccountNumber ∧
    (switch_to_account envOk (.num 1) w8).2.registry.lastUpdated = envOk.now ∧
    (switch_to_account envOk (.num 1) w8).2.liveConfig = dictGet 1 w8.configs :=
  c8_switch_to_active envOk (.num 1) w8 1 (by decide) rfl (by decide)

/-- C9: reads try the encodings in the fixed order utf-8, utf-8-sig,
latin-1, cp1252 and behave as determined by the outcome under the first
encoding that decodes: a JSON syntax error there fails immediately
(later encodings are irrelevant — they are universally quantified and do
not appear in the result), exhaustion of all encodings yields the
decoding-error case, and the two error kinds are distinct. -/
theorem c9_read_encoding_order :
    encodings_to_try = [.utf8, .utf8sig, .latin1, .cp1252] ∧
    (∀ f : RawFile, load_sequence f =
      match firstDecodedOutcome f with
      | none => .error .encodingExhausted
      | some .decodeFail => .error .encodingExhausted
      | some .jsonFail => .error .invalidJson
      | some (.ok d) =>
        if validateSequenceDoc d then .ok d else .error .invalidFormat) ∧
    (∀ f : RawFile, load_config_file f =
      match firstDecodedOutcome f with
      | none => none
      | some .decodeFail => none
      | some .jsonFail => none
      | some (.ok d) => some d) ∧
    SeqLoadErr.encodingExhausted ≠ SeqLoadErr.invalidJson := by
  refine ⟨rfl, ?_, ?_, by decide⟩
  · intro f
    exact loadSequenceAux_spec f encodings_to_try
  · intro f
    exact loadConfigAux_spec f encodings_to_try

/-- Witness for C9 on a file no candidate encoding can decode. -/
theorem c9_read_encoding_order_witness :
    load_sequence (fun _ => ReadOutcome.decodeFail) =
      .error .encodingExhausted :=
  (c9_read_encoding_order.2.1 (fun _ => ReadOutcome.decodeFail)).trans rfl

/-- C10: `save_config_file` (and its per-profile store form used for
backups) succeeds only on payloads that are dictionaries holding an
`oauthAccount` dictionary with both `emailAddress` and `accountUuid`;
on any other payload it returns failure and writes nothing. -/
theorem c10_save_validates (ioOk : Bool) (d : Json) (old : Option Json)
    (n : Int) (store : List (Int × Json)) :
    ((save_config_file ioOk d old).1 = true → SpecValidPayload d) ∧
    (¬ SpecValidPayload d → save_config_file ioOk d old = (false, old)) ∧
    ((save_config_store ioOk n d store).1 = true → SpecValidPayload d) ∧
    (¬ SpecValidPayload d → save_config_store ioOk n d store = (false, store)) := by
  have hv : ¬ SpecValidPayload d → validate_claude_config d = false := by
    intro hns
    cases hval : validate_claude_config d
    · rfl
    · exact absurd ((validate_iff_spec d).mp hval) hns
  refine ⟨?_, ?_, ?_, ?_⟩
  · intro h
    exact (validate_iff_spec d).mp (save_config_file_ok h).2
  · intro hns
    unfold save_config_file
    rw [hv hns]
    rfl
  · intro h
    simp only [save_config_store] at h
    exact (validate_iff_spec d).mp (save_config_file_ok h).2
  · intro hns
    simp only [save_config_store]
    unfold save_config_file
    rw [hv hns]
    rfl

/-- Witness for C10 at an invalid payload. -/
theorem c10_save_validates_witness :
    save_config_file true .null none = (false, none) :=
  (c10_save_validates true .null none 1 []).2.1
    (by rintro ⟨fields, oa, h, _⟩; cases h)

end CCSwitch
